import Mathlib

/-!
# Debug entry points of `DBImpl` (`db/db_impl/db_impl_debug.cc`)

A shallow embedding of the `TEST_*` member functions of `DBImpl`.  Member functions whose
bodies live in other translation units (`RunManualCompaction`, `FlushMemTable`,
`SwitchMemtable`, `SwitchWAL`, `WaitForBackgroundWork`, the write threads, the condition
variable) are taken as parameters or recorded as events of a call trace.
-/

namespace RocksDB

/-! ## Data model -/

/-- Modelled from the spec: the `Status` class is declared in a header outside
`db_impl_debug.cc`.  Code `0` is success, every other code is one of the failure kinds of the
error taxonomy; `state` is the attached message. -/
structure Status where
  code : Nat
  state : String
deriving DecidableEq, Repr

namespace Status

/-- The value of `Status::OK()`. -/
def OK : Status := ⟨0, ""⟩

/-- The test `Status::ok()`. -/
def ok (s : Status) : Bool := s.code == 0

end Status

/-- Modelled from the spec: the organisation policies of a column family (leveled, universal,
FIFO, none); the enumeration is declared in the options header. -/
inductive CompactionStyle where
  | kCompactionStyleLevel
  | kCompactionStyleUniversal
  | kCompactionStyleFIFO
  | kCompactionStyleNone
deriving DecidableEq, Repr

/-- The part of `ImmutableCFOptions` read by the debug entry points; `tag` stands for the
remaining option fields. -/
structure ImmutableCFOptions where
  compaction_style : CompactionStyle
  tag : Nat
deriving DecidableEq, Repr

/-- Modelled from the spec: file metadata is a file number, a key range, a size and a
sequence range. -/
structure FileMetaData where
  number : Nat
  smallest : String
  largest : String
  file_size : Nat
  smallest_seqno : Nat
  largest_seqno : Nat
deriving DecidableEq, Repr

/-- Modelled from the spec: metadata of a large-value (blob) file, identified by its file
number. -/
structure BlobFileMetaData where
  blob_file_number : Nat
  total_blob_bytes : Nat
deriving DecidableEq, Repr

/-- The accessors of `VersionStorageInfo` used here: `LevelFiles(level)` with the pointed-to
metadata objects in vector order, and `GetBlobFiles()`. -/
structure VersionStorageInfo where
  LevelFiles : Nat → List FileMetaData
  GetBlobFiles : List BlobFileMetaData

/-- A `Version` gives access to its storage info. -/
structure Version where
  storage_info : VersionStorageInfo

/-- The accessors of `ColumnFamilyData` used here: `GetName()`, `ioptions()`, `current()`. -/
structure ColumnFamilyData where
  GetName : String
  ioptions : ImmutableCFOptions
  current : Version

/-- A non-null `ColumnFamilyHandleImpl`; `cfd()` is its column family. -/
structure ColumnFamilyHandleImpl where
  cfd : ColumnFamilyData

/-- A `ColumnFamilyHandle*` argument: `none` is `nullptr`, and `static_cast_with_check` of a
non-null handle yields the implementation object. -/
abbrev ColumnFamilyHandle := Option ColumnFamilyHandleImpl

/-- The error handler holds the recorded background error. -/
structure ErrorHandler where
  bg_error_ : Status
deriving DecidableEq, Repr

/-- The call `ErrorHandler::GetBGError()`. -/
def ErrorHandler.GetBGError (h : ErrorHandler) : Status := h.bg_error_

/-- The parts of `VersionSet` read here: the two sequence watermarks and the column family
set in iteration order. -/
structure VersionSet where
  LastSequence : Nat
  LastAllocatedSequence : Nat
  GetColumnFamilySet : List ColumnFamilyData

/-- The members of `DBImpl` read by the debug entry points. -/
structure DBImpl where
  default_cf_handle_ : ColumnFamilyHandleImpl
  two_write_queues_ : Bool
  last_seq_same_as_publish_seq_ : Bool
  bg_compaction_scheduled_ : Int
  bg_purge_scheduled_ : Int
  error_handler_ : ErrorHandler
  versions_ : VersionSet

/-- A C++ `int` used as a truth value: nonzero is true. -/
def intToBool (x : Int) : Bool := decide (x ≠ 0)

/-- Two's-complement wrap-around of a value into the range of a 32-bit `int`. -/
def wrapInt32 (x : Int) : Int := (x + 2 ^ 31) % 2 ^ 32 - 2 ^ 31

/-- The largest `int`. -/
def INT_MAX : Int := 2 ^ 31 - 1

/-- The smallest `int`. -/
def INT_MIN : Int := -(2 ^ 31)

/-- The value of `std::numeric_limits<uint64_t>::max()`. -/
def UINT64_MAX : Nat := 2 ^ 64 - 1

/-- A `const Slice*` argument: `none` is `nullptr`. -/
abbrev SlicePtr := Option String

/-- A default-constructed `CompactRangeOptions()`; the debug entry point never changes a
field of it. -/
inductive CompactRangeOptions where
  | default
deriving DecidableEq, Repr

/-- The arguments of one call of `RunManualCompaction`, in positional order. -/
structure ManualCompactionCall where
  cfd : ColumnFamilyData
  input_level : Int
  output_level : Int
  compact_range_options : CompactRangeOptions
  begin_key : SlicePtr
  end_key : SlicePtr
  exclusive : Bool
  disallow_trivial_move : Bool
  max_file_num_to_ignore : Nat
  trim_ts : String

/-- Modelled from the spec: flush options carry `wait` (synchronous completion) and
`allow_write_stall`; the structure is declared outside `db_impl_debug.cc`, and both fields
are assigned before use. -/
structure FlushOptions where
  wait : Bool := true
  allow_write_stall : Bool := false
deriving DecidableEq, Repr

/-- Modelled from the spec: the reasons for a flush are the triggers of a buffer switch (size
threshold, explicit request, log rotation) and any other cause, next to the reason `kTest`
that the debug entry points pass; the enumeration is declared outside `db_impl_debug.cc`. -/
inductive FlushReason where
  | kOthers
  | kWriteBufferFull
  | kManualFlush
  | kWalFull
  | kTest
deriving DecidableEq, Repr

/-- The arguments of one call of `FlushMemTable`. -/
structure FlushMemTableCall where
  cfd : ColumnFamilyData
  flush_options : FlushOptions
  flush_reason : FlushReason

/-! ## Write threads and call traces -/

/-- The two write queues of `DBImpl`. -/
inductive WriteQueue where
  | write_thread_
  | nonmem_write_thread_
deriving DecidableEq, Repr

/-- The address of a `WriteThread::Writer`: an object obtained from `new` at some heap
address, or the local `nonmem_w` of `TEST_SwitchMemtable`. -/
inductive WriterPtr where
  | heap (addr : Nat)
  | nonmem_w
deriving DecidableEq, Repr

/-- A default-constructed `WriteContext`, handed to the switch routines. -/
inductive WriteContext where
  | default
deriving DecidableEq, Repr

/-- The observable steps of the switch entry points, in program order: taking and releasing
`mutex_` (`InstrumentedMutexLock`), allocating and deleting a writer, entering and leaving
unbatched admission on a write queue, and the call and the return of the switch routine. -/
inductive Event where
  | Lock
  | Unlock
  | NewWriter (w : WriterPtr)
  | DeleteWriter (w : WriterPtr)
  | EnterUnbatched (q : WriteQueue) (w : WriterPtr)
  | ExitUnbatched (q : WriteQueue) (w : WriterPtr)
  | SwitchWAL (ctx : WriteContext)
  | SwitchWALReturned (s : Status)
  | SwitchMemtable (cfd : ColumnFamilyData) (ctx : WriteContext)
  | SwitchMemtableReturned (s : Status)

/-- A computation that appends to the call trace. -/
abbrev Exec (α : Type) := StateM (List Event) α

/-- Appends one step to the trace. -/
def record (e : Event) : Exec Unit := modify fun tr => tr ++ [e]

/-- Runs a computation from the empty trace: its result and the trace it produced. -/
def Exec.trace {α : Type} (x : Exec α) : α × List Event := x.run []

/-- Replays the admission steps of a trace on a stack of open unbatched windows: an
`EnterUnbatched` pushes its queue and writer, an `ExitUnbatched` must name the queue and
writer on top of the stack and pops them.  `none` when an exit does not match. -/
def replayUnbatched : List Event → List (WriteQueue × WriterPtr) →
    Option (List (WriteQueue × WriterPtr))
  | [], open_ => some open_
  | Event.EnterUnbatched q w :: es, open_ => replayUnbatched es ((q, w) :: open_)
  | Event.ExitUnbatched q w :: es, open_ =>
    match open_ with
    | [] => none
    | top :: rest => if top = (q, w) then replayUnbatched es rest else none
  | _ :: es, open_ => replayUnbatched es open_

/-- Recognises `EnterUnbatched` on queue `q` with writer `w`. -/
def Event.isEnter (q : WriteQueue) (w : WriterPtr) : Event → Bool
  | Event.EnterUnbatched q' w' => decide (q' = q ∧ w' = w)
  | _ => false

/-- Recognises `ExitUnbatched` on queue `q` with writer `w`. -/
def Event.isExit (q : WriteQueue) (w : WriterPtr) : Event → Bool
  | Event.ExitUnbatched q' w' => decide (q' = q ∧ w' = w)
  | _ => false

/-- Recognises the deletion of writer `w`. -/
def Event.isDelete (w : WriterPtr) : Event → Bool
  | Event.DeleteWriter w' => decide (w' = w)
  | _ => false

/-- Recognises the allocation of writer `w`. -/
def Event.isNew (w : WriterPtr) : Event → Bool
  | Event.NewWriter w' => decide (w' = w)
  | _ => false

/-- The write queues that can have batched writers in flight: the main queue, and the
non-memtable queue when two write queues are in use. -/
def DBImpl.queueInUse (db : DBImpl) : WriteQueue → Bool
  | WriteQueue.write_thread_ => true
  | WriteQueue.nonmem_write_thread_ => db.two_write_queues_

namespace DBImpl

/-! ## `TEST_BeginWrite`, `TEST_EndWrite`, `TEST_SwitchWAL`, `TEST_SwitchMemtable` -/

/-- Embeds `DBImpl::TEST_BeginWrite`: allocates a writer (`new` returns address `addr`), enters
unbatched admission on the main queue with it and returns it as `void*`. -/
def TEST_BeginWrite (addr : Nat) : Exec WriterPtr := do
  let w := WriterPtr.heap addr
  record (Event.NewWriter w)
  record (Event.EnterUnbatched WriteQueue.write_thread_ w)
  return w

/-- Embeds `DBImpl::TEST_EndWrite`: leaves unbatched admission on the main queue with the given
writer and deletes it. -/
def TEST_EndWrite (w : WriterPtr) : Exec Unit := do
  let writer := w
  record (Event.ExitUnbatched WriteQueue.write_thread_ writer)
  record (Event.DeleteWriter writer)

/-- Embeds `DBImpl::TEST_SwitchWAL`. -/
def TEST_SwitchWAL (SwitchWAL : WriteContext → Status) (_db : DBImpl) (addr : Nat) :
    Exec Status := do
  let write_context := WriteContext.default
  record Event.Lock
  let writer ← TEST_BeginWrite addr
  record (Event.SwitchWAL write_context)
  let s := SwitchWAL write_context
  record (Event.SwitchWALReturned s)
  TEST_EndWrite writer
  record Event.Unlock
  return s

/-- Embeds `DBImpl::TEST_SwitchWAL` once more, with a switch routine whose own steps are
visible: `SwitchWAL` returns its status together with the steps it takes between its call and
its return (it may enter and leave a write queue itself), and these are spliced into the
trace at that place. -/
def TEST_SwitchWAL_with_steps (SwitchWAL : WriteContext → Status × List Event)
    (_db : DBImpl) (addr : Nat) : Exec Status := do
  let write_context := WriteContext.default
  record Event.Lock
  let writer ← TEST_BeginWrite addr
  record (Event.SwitchWAL write_context)
  let r := SwitchWAL write_context
  modify fun tr => tr ++ r.2
  let s := r.1
  record (Event.SwitchWALReturned s)
  TEST_EndWrite writer
  record Event.Unlock
  return s

/-- Embeds `DBImpl::TEST_SwitchMemtable`; `cfd = none` is the `nullptr` argument. -/
def TEST_SwitchMemtable (SwitchMemtable : ColumnFamilyData → WriteContext → Status)
    (db : DBImpl) (addr : Nat) (cfd : Option ColumnFamilyData) : Exec Status := do
  let write_context := WriteContext.default
  record Event.Lock
  let cfd : ColumnFamilyData :=
    match cfd with
    | none => db.default_cf_handle_.cfd
    | some c => c
  let writer ← TEST_BeginWrite addr
  let s ←
    if db.two_write_queues_ then do
      let nonmem := WriterPtr.nonmem_w
      record (Event.EnterUnbatched WriteQueue.nonmem_write_thread_ nonmem)
      record (Event.SwitchMemtable cfd write_context)
      let s := SwitchMemtable cfd write_context
      record (Event.SwitchMemtableReturned s)
      record (Event.ExitUnbatched WriteQueue.nonmem_write_thread_ nonmem)
      pure s
    else do
      record (Event.SwitchMemtable cfd write_context)
      let s := SwitchMemtable cfd write_context
      record (Event.SwitchMemtableReturned s)
      pure s
  TEST_EndWrite writer
  record Event.Unlock
  return s

/-! ## `TEST_CompactRange` -/

/-- Embeds `DBImpl::TEST_CompactRange`: picks the column family, computes the output level in `int`
arithmetic and tail-calls `RunManualCompaction`.  The result is the call made together with
the status it returned. -/
def TEST_CompactRange (RunManualCompaction : ManualCompactionCall → Status) (db : DBImpl)
    (level : Int) (begin_key end_key : SlicePtr) (column_family : ColumnFamilyHandle)
    (disallow_trivial_move : Bool) : ManualCompactionCall × Status :=
  let cfd : ColumnFamilyData :=
    match column_family with
    | none => db.default_cf_handle_.cfd
    | some cfh => cfh.cfd
  let output_level : Int :=
    if cfd.ioptions.compaction_style = CompactionStyle.kCompactionStyleUniversal ∨
        cfd.ioptions.compaction_style = CompactionStyle.kCompactionStyleFIFO then
      level
    else
      wrapInt32 (level + 1)
  let call : ManualCompactionCall :=
    { cfd := cfd, input_level := level, output_level := output_level,
      compact_range_options := CompactRangeOptions.default,
      begin_key := begin_key, end_key := end_key, exclusive := true,
      disallow_trivial_move := disallow_trivial_move,
      max_file_num_to_ignore := UINT64_MAX, trim_ts := "" }
  (call, RunManualCompaction call)

/-! ## `TEST_FlushMemTable` -/

/-- Embeds `DBImpl::TEST_FlushMemTable(bool, bool, ColumnFamilyHandle*)`: builds the flush options,
picks the column family and tail-calls `FlushMemTable`.  The result is the call made together
with the status it returned. -/
def TEST_FlushMemTable (FlushMemTable : FlushMemTableCall → Status) (db : DBImpl)
    (wait allow_write_stall : Bool) (cfh : ColumnFamilyHandle) : FlushMemTableCall × Status :=
  let fo : FlushOptions := {}
  let fo := { fo with wait := wait }
  let fo := { fo with allow_write_stall := allow_write_stall }
  let cfd : ColumnFamilyData :=
    match cfh with
    | none => db.default_cf_handle_.cfd
    | some cfhi => cfhi.cfd
  let call : FlushMemTableCall :=
    { cfd := cfd, flush_options := fo, flush_reason := FlushReason.kTest }
  (call, FlushMemTable call)

/-- Embeds `DBImpl::TEST_FlushMemTable(ColumnFamilyData*, const FlushOptions&)`. -/
def TEST_FlushMemTable_cfd (FlushMemTable : FlushMemTableCall → Status)
    (cfd : ColumnFamilyData) (flush_opts : FlushOptions) : FlushMemTableCall × Status :=
  let call : FlushMemTableCall :=
    { cfd := cfd, flush_options := flush_opts, flush_reason := FlushReason.kTest }
  (call, FlushMemTable call)

/-! ## `TEST_GetLastVisibleSequence` -/

/-- Embeds `DBImpl::TEST_GetLastVisibleSequence`. -/
def TEST_GetLastVisibleSequence (db : DBImpl) : Nat :=
  if db.last_seq_same_as_publish_seq_ then
    db.versions_.LastSequence
  else
    db.versions_.LastAllocatedSequence

/-! ## Background error -/

/-- Embeds `DBImpl::TEST_GetBGError`: reads the recorded background error under the mutex. -/
def TEST_GetBGError (db : DBImpl) : Status :=
  db.error_handler_.GetBGError

/-- Embeds `DBImpl::TEST_WaitForBackgroundWork`: under the mutex, runs `WaitForBackgroundWork()`
(which may change the engine state) and then reads the recorded background error.  The result
is the returned status and the state left by the wait. -/
def TEST_WaitForBackgroundWork (WaitForBackgroundWork : DBImpl → DBImpl) (db : DBImpl) :
    Status × DBImpl :=
  let db := WaitForBackgroundWork db
  (db.error_handler_.GetBGError, db)

/-! ## Waiting on the background condition variable -/

/-- The loop `while (cond) { bg_cv_.Wait(); }` run with `mutex_` held.  `Wait k` is the engine
state found when the wait number `k` (counted from `0`) returns: the mutex is released while
waiting, so other threads decide it.  The loop ends with the state in which the condition was
found false and the number of waits made; `none` when `fuel` tests of the condition did not
suffice. -/
def whileWait (cond : DBImpl → Bool) (Wait : Nat → DBImpl) :
    Nat → Nat → DBImpl → Option (DBImpl × Nat)
  | 0, _, _ => none
  | fuel + 1, waits, db =>
    if cond db then whileWait cond Wait fuel (waits + 1) (Wait waits) else some (db, waits)

/-- The loop condition of `TEST_WaitForScheduledCompaction`. -/
def compactionPending (db : DBImpl) : Bool :=
  intToBool db.bg_compaction_scheduled_ && db.error_handler_.GetBGError.ok

/-- The loop condition of `TEST_WaitForPurge`. -/
def purgePending (db : DBImpl) : Bool :=
  intToBool db.bg_purge_scheduled_ && db.error_handler_.GetBGError.ok

/-- Embeds `DBImpl::TEST_WaitForScheduledCompaction`: the returned status, the engine state at the
return and the number of waits on `bg_cv_`. -/
def TEST_WaitForScheduledCompaction (Wait : Nat → DBImpl) (fuel : Nat) (db : DBImpl) :
    Option (Status × DBImpl × Nat) :=
  match whileWait compactionPending Wait fuel 0 db with
  | none => none
  | some (db, waits) => some (db.error_handler_.GetBGError, db, waits)

/-- Embeds `DBImpl::TEST_WaitForPurge`: the returned status, the engine state at the return and the
number of waits on `bg_cv_`. -/
def TEST_WaitForPurge (Wait : Nat → DBImpl) (fuel : Nat) (db : DBImpl) :
    Option (Status × DBImpl × Nat) :=
  match whileWait purgePending Wait fuel 0 db with
  | none => none
  | some (db, waits) => some (db.error_handler_.GetBGError, db, waits)

/-! ## `TEST_GetFilesMetaData` -/

/-- The call `std::vector::resize(n)`: keeps the first `n` elements and pads with
value-initialised elements. -/
def vectorResize {α : Type} (v : List α) (n : Nat) (fill : α) : List α :=
  v.take n ++ List.replicate (n - v.length) fill

/-- The statement `(*metadata)[level].push_back(f)`. -/
def pushBackAt (metadata : List (List FileMetaData)) (level : Nat) (f : FileMetaData) :
    List (List FileMetaData) :=
  metadata.set level (metadata.getD level [] ++ [f])

/-- The body of the level loop of `TEST_GetFilesMetaData`: clears entry `level` and appends
a copy of every file of that level. -/
def copyLevel (vstorage : VersionStorageInfo) (metadata : List (List FileMetaData))
    (level : Nat) : List (List FileMetaData) :=
  let files := vstorage.LevelFiles level
  let metadata := metadata.set level []
  files.foldl (fun md f => pushBackAt md level f) metadata

/-- Embeds `DBImpl::TEST_GetFilesMetaData`.  `NumberLevels` is the value of `NumberLevels()`, a level
count; `metadata` is the prior content of the output vector; `blob_metadata = none` is the
`nullptr` argument and `some v` an output vector with prior content `v`.  The result is the
final content of both outputs. -/
def TEST_GetFilesMetaData (NumberLevels : Nat) (column_family : ColumnFamilyHandleImpl)
    (metadata : List (List FileMetaData)) (blob_metadata : Option (List BlobFileMetaData)) :
    List (List FileMetaData) × Option (List BlobFileMetaData) :=
  let cfd := column_family.cfd
  let current := cfd.current
  let vstorage := current.storage_info
  let metadata := vectorResize metadata NumberLevels []
  let metadata := (List.range NumberLevels).foldl (copyLevel vstorage) metadata
  let blob_metadata :=
    match blob_metadata with
    | some _ => some vstorage.GetBlobFiles
    | none => none
  (metadata, blob_metadata)

/-! ## `TEST_GetAllImmutableCFOptions` -/

/-- A `std::unordered_map<std::string, const ImmutableCFOptions*>` as the list of its
entries; the pointer to a family's options is identified with the options. -/
abbrev IOptsMap := List (String × ImmutableCFOptions)

/-- The call `unordered_map::insert`: adds the entry unless the key is already present. -/
def IOptsMap.insert (m : IOptsMap) (k : String) (v : ImmutableCFOptions) : IOptsMap :=
  if (m.lookup k).isSome then m else m ++ [(k, v)]

/-- The call `unordered_map::clear`. -/
def IOptsMap.clear (_m : IOptsMap) : IOptsMap := []

/-- Embeds `DBImpl::TEST_GetAllImmutableCFOptions`: the returned status and the final content of the
output map, given its prior content. -/
def TEST_GetAllImmutableCFOptions (db : DBImpl) (iopts_map : IOptsMap) : Status × IOptsMap :=
  let collected : List String × List ImmutableCFOptions :=
    db.versions_.GetColumnFamilySet.foldl
      (fun acc cfd => (acc.1 ++ [cfd.GetName], acc.2 ++ [cfd.ioptions])) ([], [])
  let cf_names := collected.1
  let iopts := collected.2
  let iopts_map := IOptsMap.clear iopts_map
  let iopts_map := (List.range cf_names.length).foldl
    (fun m i => IOptsMap.insert m (cf_names.getD i "")
      (iopts.getD i ⟨CompactionStyle.kCompactionStyleLevel, 0⟩))
    iopts_map
  (Status.OK, iopts_map)

end DBImpl

/-- The column family a handle argument denotes: the default column family for `nullptr`,
the handle's own family otherwise. -/
def DBImpl.handleCfd (db : DBImpl) (column_family : ColumnFamilyHandle) : ColumnFamilyData :=
  match column_family with
  | none => db.default_cf_handle_.cfd
  | some cfh => cfh.cfd

/-- Whether a compaction style is universal or FIFO. -/
def CompactionStyle.sameLevel (style : CompactionStyle) : Bool :=
  decide (style = CompactionStyle.kCompactionStyleUniversal ∨
    style = CompactionStyle.kCompactionStyleFIFO)

/-- Along the trace `tr`, `SwitchWAL` is invoked only while unbatched admission is held on
every write queue in use: at every call of `SwitchWAL`, each such queue has been entered
before the call and has not been left before it. -/
def switchWALUnderAdmission (db : DBImpl) (tr : List Event) : Prop :=
  ∀ pre post ctx, tr = pre ++ Event.SwitchWAL ctx :: post →
    ∀ q, db.queueInUse q = true →
      (∃ w, Event.EnterUnbatched q w ∈ pre) ∧ ∀ w, Event.ExitUnbatched q w ∉ pre

/-- Admission is released properly along a trace whose `TEST_BeginWrite` allocated the
writer at heap address `addr`: the enter and exit steps are well nested and all windows are
closed at the end; every `EnterUnbatched` is followed by exactly one `ExitUnbatched` on the
same queue with the same writer; enters and exits balance for every queue and writer; the
writer is allocated once, it is the only writer deleted, and it is deleted exactly once, by
the steps of `TEST_EndWrite` just before the mutex is released. -/
def releasesAdmission (tr : List Event) (addr : Nat) : Prop :=
  replayUnbatched tr [] = some [] ∧
  (∀ pre post q w, tr = pre ++ Event.EnterUnbatched q w :: post →
    post.countP (Event.isExit q w) = 1) ∧
  (∀ q w, tr.countP (Event.isEnter q w) = tr.countP (Event.isExit q w)) ∧
  tr.countP (Event.isNew (WriterPtr.heap addr)) = 1 ∧
  (∀ w, tr.countP (Event.isDelete w) = if w = WriterPtr.heap addr then 1 else 0) ∧
  ∃ pre, tr = pre ++ (DBImpl.TEST_EndWrite (WriterPtr.heap addr)).trace.2 ++ [Event.Unlock]

/-- The contract of a wait entry point `run` for the counter `scheduled`, at run `Wait`,
fuel `fuel` and entry state `db`.  (1) Whenever it returns, in the state at the return either
the counter is `0` or the recorded background error is not OK, the returned status is the
background error recorded in that state, and that state is the entry state after no wait and
the state found by the last wait otherwise.  (2) When on entry the counter is `0` or an error
is recorded, it returns the recorded error without any wait.  (3) It returns as soon as the
fuel exceeds by two the index of a wait that finds the counter `0` or an error recorded. -/
def waitContract (run : (Nat → DBImpl) → Nat → DBImpl → Option (Status × DBImpl × Nat))
    (scheduled : DBImpl → Int) (Wait : Nat → DBImpl) (fuel : Nat) (db : DBImpl) : Prop :=
  (∀ s db' n, run Wait fuel db = some (s, db', n) →
    (scheduled db' = 0 ∨ db'.error_handler_.GetBGError.ok = false) ∧
    s = db'.error_handler_.GetBGError ∧
    db' = (if n = 0 then db else Wait (n - 1))) ∧
  ((scheduled db = 0 ∨ db.error_handler_.GetBGError.ok = false) →
    run Wait (fuel + 1) db = some (db.error_handler_.GetBGError, db, 0)) ∧
  (∀ j, (scheduled (Wait j) = 0 ∨ (Wait j).error_handler_.GetBGError.ok = false) →
    j + 2 ≤ fuel → (run Wait fuel db).isSome = true)

/-! ## Concrete engine states used to evaluate the entry points -/

/-- A column family with the given name, compaction style and option tag, whose version has
two files at level 0, one at level 1 and one blob file. -/
def sampleCfd (name : String) (style : CompactionStyle) (tag : Nat) : ColumnFamilyData :=
  { GetName := name
    ioptions := ⟨style, tag⟩
    current := ⟨{ LevelFiles := fun level =>
                    if level = 0 then [⟨7, "a", "c", 10, 1, 2⟩, ⟨9, "d", "f", 20, 3, 4⟩]
                    else if level = 1 then [⟨5, "a", "z", 30, 0, 0⟩] else []
                  GetBlobFiles := [⟨11, 100⟩] }⟩ }

/-- An engine state whose default column family is leveled, with the given setting of
`two_write_queues_`, nothing scheduled and no background error. -/
def sampleDb (two_write_queues : Bool) : DBImpl :=
  { default_cf_handle_ := ⟨sampleCfd "default" CompactionStyle.kCompactionStyleLevel 0⟩
    two_write_queues_ := two_write_queues
    last_seq_same_as_publish_seq_ := true
    bg_compaction_scheduled_ := 0
    bg_purge_scheduled_ := 0
    error_handler_ := ⟨Status.OK⟩
    versions_ := { LastSequence := 5, LastAllocatedSequence := 8
                   GetColumnFamilySet :=
                     [sampleCfd "default" CompactionStyle.kCompactionStyleLevel 0,
                      sampleCfd "cf1" CompactionStyle.kCompactionStyleUniversal 1,
                      sampleCfd "default" CompactionStyle.kCompactionStyleFIFO 2] } }

/-! ## Theorems -/

namespace DBImpl

/-! ### `TEST_CompactRange` -/

/-- C1: for every input level `L` and every column family (the default one when the handle is
null), `TEST_CompactRange` runs the manual compaction on that family with input level `L`,
with output level `L` when the family's compaction style is universal or FIFO (for every
`L`, no sum is computed) and with the `int` sum `L + 1` for every other style, which is
`L + 1` for every `int` level whose successor is an `int`; so the output level is `L` or
`L + 1` and never below the input level; the returned status is that run's status. -/
theorem TEST_CompactRange_output_level (RunManualCompaction : ManualCompactionCall → Status)
    (db : DBImpl) (level : Int) (begin_key end_key : SlicePtr)
    (column_family : ColumnFamilyHandle) (disallow_trivial_move : Bool) :
    (db.TEST_CompactRange RunManualCompaction level begin_key end_key column_family
        disallow_trivial_move).1.cfd = db.handleCfd column_family ∧
    (db.TEST_CompactRange RunManualCompaction level begin_key end_key column_family
        disallow_trivial_move).1.input_level = level ∧
    (db.TEST_CompactRange RunManualCompaction level begin_key end_key column_family
        disallow_trivial_move).1.output_level =
      (if (db.handleCfd column_family).ioptions.compaction_style.sameLevel then level
        else wrapInt32 (level + 1)) ∧
    ((db.handleCfd column_family).ioptions.compaction_style.sameLevel = true →
      (db.TEST_CompactRange RunManualCompaction level begin_key end_key column_family
        disallow_trivial_move).1.output_level = level) ∧
    ((db.handleCfd column_family).ioptions.compaction_style.sameLevel = false →
      INT_MIN ≤ level → level + 1 ≤ INT_MAX →
      (db.TEST_CompactRange RunManualCompaction level begin_key end_key column_family
        disallow_trivial_move).1.output_level = level + 1) ∧
    (((db.handleCfd column_family).ioptions.compaction_style.sameLevel = true ∨
        (INT_MIN ≤ level ∧ level + 1 ≤ INT_MAX)) →
      ((db.TEST_CompactRange RunManualCompaction level begin_key end_key column_family
          disallow_trivial_move).1.output_level = level ∨
        (db.TEST_CompactRange RunManualCompaction level begin_key end_key column_family
          disallow_trivial_move).1.output_level = level + 1) ∧
      level ≤ (db.TEST_CompactRange RunManualCompaction level begin_key end_key column_family
          disallow_trivial_move).1.output_level) ∧
    (db.TEST_CompactRange RunManualCompaction level begin_key end_key column_family
        disallow_trivial_move).2 =
      RunManualCompaction (db.TEST_CompactRange RunManualCompaction level begin_key end_key
        column_family disallow_trivial_move).1 := by
  have hwrap : INT_MIN ≤ level → level + 1 ≤ INT_MAX → wrapInt32 (level + 1) = level + 1 := by
    intro hmin hmax
    unfold wrapInt32
    unfold INT_MIN at hmin
    unfold INT_MAX at hmax
    have h : (level + 1 + 2 ^ 31) % 2 ^ 32 = level + 1 + 2 ^ 31 :=
      Int.emod_eq_of_lt (by omega) (by omega)
    rw [h]
    ring
  have hcfd : (db.TEST_CompactRange RunManualCompaction level begin_key end_key column_family
      disallow_trivial_move).1.cfd = db.handleCfd column_family := by
    cases column_family <;> rfl
  have hout : (db.TEST_CompactRange RunManualCompaction level begin_key end_key column_family
      disallow_trivial_move).1.output_level =
      (if (db.handleCfd column_family).ioptions.compaction_style.sameLevel then level
        else wrapInt32 (level + 1)) := by
    cases column_family <;>
      simp only [TEST_CompactRange, handleCfd, CompactionStyle.sameLevel, decide_eq_true_eq]
  refine ⟨hcfd, rfl, hout, ?_, ?_, ?_, rfl⟩
  · intro hs
    rw [hout, if_pos hs]
  · intro hs hmin hmax
    rw [hout, hs, hwrap hmin hmax]
    simp
  · intro h
    rw [hout]
    cases hs : (db.handleCfd column_family).ioptions.compaction_style.sameLevel
    · rcases h with h | ⟨hmin, hmax⟩
      · rw [hs] at h; simp at h
      · rw [hwrap hmin hmax]
        simp
    · simp

/-- C1 witness: level `0` on the leveled default column family is compacted into level `1`,
and level `INT_MAX` on a universal column family is compacted into level `INT_MAX`. -/
theorem TEST_CompactRange_output_level_witness :
    ((sampleDb false).TEST_CompactRange (fun _ => Status.OK) 0 none none none
        false).1.output_level = 0 + 1 ∧
    ((sampleDb false).TEST_CompactRange (fun _ => Status.OK) INT_MAX none none
        (some ⟨sampleCfd "cf1" CompactionStyle.kCompactionStyleUniversal 1⟩)
        false).1.output_level = INT_MAX :=
  ⟨(TEST_CompactRange_output_level (fun _ => Status.OK) (sampleDb false) 0 none none none
      false).2.2.2.2.1 rfl (by decide) (by decide),
   (TEST_CompactRange_output_level (fun _ => Status.OK) (sampleDb false) INT_MAX none none
      (some ⟨sampleCfd "cf1" CompactionStyle.kCompactionStyleUniversal 1⟩) false).2.2.2.1 rfl⟩

/-! ### `TEST_FlushMemTable` -/

/-- C7: for every pair of booleans and every handle, `TEST_FlushMemTable` calls
`FlushMemTable` on the handle's column family (the default one for a null handle) with flush
options carrying exactly the two arguments and with reason `kTest`, and returns that call's
status unchanged, whatever the value of `wait`. -/
theorem TEST_FlushMemTable_forwards (FlushMemTable : FlushMemTableCall → Status)
    (db : DBImpl) (wait allow_write_stall : Bool) (cfh : ColumnFamilyHandle) :
    (db.TEST_FlushMemTable FlushMemTable wait allow_write_stall cfh).1.cfd =
        db.handleCfd cfh ∧
    (db.TEST_FlushMemTable FlushMemTable wait allow_write_stall cfh).1.flush_options.wait =
        wait ∧
    (db.TEST_FlushMemTable FlushMemTable wait allow_write_stall
        cfh).1.flush_options.allow_write_stall = allow_write_stall ∧
    (db.TEST_FlushMemTable FlushMemTable wait allow_write_stall cfh).1.flush_reason =
        FlushReason.kTest ∧
    (db.TEST_FlushMemTable FlushMemTable wait allow_write_stall cfh).2 =
        FlushMemTable (db.TEST_FlushMemTable FlushMemTable wait allow_write_stall cfh).1 ∧
    (db.TEST_FlushMemTable FlushMemTable wait allow_write_stall cfh).2 =
        FlushMemTable
          { cfd := db.handleCfd cfh
            flush_options := { wait := wait, allow_write_stall := allow_write_stall }
            flush_reason := FlushReason.kTest } ∧
    db.TEST_FlushMemTable FlushMemTable wait allow_write_stall cfh =
        TEST_FlushMemTable_cfd FlushMemTable (db.handleCfd cfh)
          { wait := wait, allow_write_stall := allow_write_stall } := by
  cases cfh <;> exact ⟨rfl, rfl, rfl, rfl, rfl, rfl, rfl⟩

/-! ### `TEST_GetLastVisibleSequence` -/

/-- C8: in every state `TEST_GetLastVisibleSequence` returns the version set's `LastSequence`
when `last_seq_same_as_publish_seq_` is set and its `LastAllocatedSequence` otherwise; hence
in every state where `LastSequence` does not exceed `LastAllocatedSequence` the result is at
least `LastSequence` and at most `LastAllocatedSequence`. -/
theorem TEST_GetLastVisibleSequence_bounds (db : DBImpl) :
    db.TEST_GetLastVisibleSequence =
      (if db.last_seq_same_as_publish_seq_ = true then db.versions_.LastSequence
        else db.versions_.LastAllocatedSequence) ∧
    (db.last_seq_same_as_publish_seq_ = true →
        db.TEST_GetLastVisibleSequence = db.versions_.LastSequence) ∧
    (db.last_seq_same_as_publish_seq_ = false →
        db.TEST_GetLastVisibleSequence = db.versions_.LastAllocatedSequence) ∧
    (db.versions_.LastSequence ≤ db.versions_.LastAllocatedSequence →
      db.versions_.LastSequence ≤ db.TEST_GetLastVisibleSequence ∧
      db.TEST_GetLastVisibleSequence ≤ db.versions_.LastAllocatedSequence) := by
  unfold TEST_GetLastVisibleSequence
  cases hflag : db.last_seq_same_as_publish_seq_ <;> simp

/-- C8 witness: with `LastSequence = 5`, `LastAllocatedSequence = 8` and the flag set, the
result is `5`, between the two watermarks; with the flag clear in a state where
`LastSequence = 9` exceeds `LastAllocatedSequence = 3`, the result is still
`LastAllocatedSequence`. -/
theorem TEST_GetLastVisibleSequence_bounds_witness :
    (sampleDb false).TEST_GetLastVisibleSequence = 5 ∧
    ((sampleDb false).versions_.LastSequence ≤ (sampleDb false).TEST_GetLastVisibleSequence ∧
      (sampleDb false).TEST_GetLastVisibleSequence ≤
        (sampleDb false).versions_.LastAllocatedSequence) ∧
    TEST_GetLastVisibleSequence
        { sampleDb false with
          last_seq_same_as_publish_seq_ := false
          versions_ := { LastSequence := 9, LastAllocatedSequence := 3,
                         GetColumnFamilySet := [] } } = 3 :=
  ⟨(TEST_GetLastVisibleSequence_bounds (sampleDb false)).2.1 rfl,
   (TEST_GetLastVisibleSequence_bounds (sampleDb false)).2.2.2 (by decide),
   (TEST_GetLastVisibleSequence_bounds
      { sampleDb false with
        last_seq_same_as_publish_seq_ := false
        versions_ := { LastSequence := 9, LastAllocatedSequence := 3,
                       GetColumnFamilySet := [] } }).2.2.1 rfl⟩

/-! ### `TEST_WaitForBackgroundWork` -/

/-- C5: for every engine state and every behaviour of the wait, the result of
`TEST_WaitForBackgroundWork` is the error held by the error handler in the state the wait
leaves, the value `TEST_GetBGError` returns in that state; so it is OK exactly when the
error recorded at that point is OK. -/
theorem TEST_WaitForBackgroundWork_reports_bg_error (WaitForBackgroundWork : DBImpl → DBImpl)
    (db : DBImpl) :
    (db.TEST_WaitForBackgroundWork WaitForBackgroundWork).2 = WaitForBackgroundWork db ∧
    (db.TEST_WaitForBackgroundWork WaitForBackgroundWork).1 =
        (WaitForBackgroundWork db).error_handler_.bg_error_ ∧
    (db.TEST_WaitForBackgroundWork WaitForBackgroundWork).1 =
        (db.TEST_WaitForBackgroundWork WaitForBackgroundWork).2.TEST_GetBGError ∧
    ((db.TEST_WaitForBackgroundWork WaitForBackgroundWork).1.ok = true ↔
        (WaitForBackgroundWork db).error_handler_.bg_error_.code = 0) := by
  refine ⟨rfl, rfl, rfl, ?_⟩
  simp [TEST_WaitForBackgroundWork, ErrorHandler.GetBGError, Status.ok]

/-! ### Traces of the switch entry points -/

/-- The trace of `TEST_SwitchWAL`. -/
theorem TEST_SwitchWAL_trace (SwitchWAL : WriteContext → Status) (db : DBImpl) (addr : Nat) :
    (db.TEST_SwitchWAL SwitchWAL addr).trace =
      (SwitchWAL WriteContext.default,
       [Event.Lock, Event.NewWriter (WriterPtr.heap addr),
        Event.EnterUnbatched WriteQueue.write_thread_ (WriterPtr.heap addr),
        Event.SwitchWAL WriteContext.default,
        Event.SwitchWALReturned (SwitchWAL WriteContext.default),
        Event.ExitUnbatched WriteQueue.write_thread_ (WriterPtr.heap addr),
        Event.DeleteWriter (WriterPtr.heap addr), Event.Unlock]) :=
  rfl

/-- The trace of `TEST_SwitchMemtable` when two write queues are in use. -/
theorem TEST_SwitchMemtable_trace_two_queues
    (SwitchMemtable : ColumnFamilyData → WriteContext → Status) (db : DBImpl) (addr : Nat)
    (cfd : Option ColumnFamilyData) (h : db.two_write_queues_ = true) :
    (db.TEST_SwitchMemtable SwitchMemtable addr cfd).trace =
      (SwitchMemtable (cfd.getD db.default_cf_handle_.cfd) WriteContext.default,
       [Event.Lock, Event.NewWriter (WriterPtr.heap addr),
        Event.EnterUnbatched WriteQueue.write_thread_ (WriterPtr.heap addr),
        Event.EnterUnbatched WriteQueue.nonmem_write_thread_ WriterPtr.nonmem_w,
        Event.SwitchMemtable (cfd.getD db.default_cf_handle_.cfd) WriteContext.default,
        Event.SwitchMemtableReturned
          (SwitchMemtable (cfd.getD db.default_cf_handle_.cfd) WriteContext.default),
        Event.ExitUnbatched WriteQueue.nonmem_write_thread_ WriterPtr.nonmem_w,
        Event.ExitUnbatched WriteQueue.write_thread_ (WriterPtr.heap addr),
        Event.DeleteWriter (WriterPtr.heap addr), Event.Unlock]) := by
  cases cfd <;>
    · simp only [TEST_SwitchMemtable, h]
      rfl

/-- The trace of `TEST_SwitchMemtable` when a single write queue is in use. -/
theorem TEST_SwitchMemtable_trace_one_queue
    (SwitchMemtable : ColumnFamilyData → WriteContext → Status) (db : DBImpl) (addr : Nat)
    (cfd : Option ColumnFamilyData) (h : db.two_write_queues_ = false) :
    (db.TEST_SwitchMemtable SwitchMemtable addr cfd).trace =
      (SwitchMemtable (cfd.getD db.default_cf_handle_.cfd) WriteContext.default,
       [Event.Lock, Event.NewWriter (WriterPtr.heap addr),
        Event.EnterUnbatched WriteQueue.write_thread_ (WriterPtr.heap addr),
        Event.SwitchMemtable (cfd.getD db.default_cf_handle_.cfd) WriteContext.default,
        Event.SwitchMemtableReturned
          (SwitchMemtable (cfd.getD db.default_cf_handle_.cfd) WriteContext.default),
        Event.ExitUnbatched WriteQueue.write_thread_ (WriterPtr.heap addr),
        Event.DeleteWriter (WriterPtr.heap addr), Event.Unlock]) := by
  cases cfd <;>
    · simp only [TEST_SwitchMemtable, h]
      rfl

/-- C2: for every column family and both settings of `two_write_queues_`, the trace of
`TEST_SwitchMemtable` calls `SwitchMemtable` on that family, and at every call of
`SwitchMemtable` in the trace each write queue in use (the main queue, and the non-memtable
queue when two queues are in use) has been entered unbatched before the call, has not been
left before the call, and the call's return is the very next step, so no `ExitUnbatched`
happens until `SwitchMemtable` has returned. -/
theorem TEST_SwitchMemtable_exclusive_window
    (SwitchMemtable : ColumnFamilyData → WriteContext → Status) (db : DBImpl) (addr : Nat)
    (cfd : Option ColumnFamilyData) :
    (∃ pre post, (db.TEST_SwitchMemtable SwitchMemtable addr cfd).trace.2 =
        pre ++ Event.SwitchMemtable (cfd.getD db.default_cf_handle_.cfd)
          WriteContext.default :: post) ∧
    ∀ pre post c ctx,
      (db.TEST_SwitchMemtable SwitchMemtable addr cfd).trace.2 =
        pre ++ Event.SwitchMemtable c ctx :: post →
      (∀ q, db.queueInUse q = true →
        (∃ w, Event.EnterUnbatched q w ∈ pre) ∧ ∀ w, Event.ExitUnbatched q w ∉ pre) ∧
      ∃ s rest, post = Event.SwitchMemtableReturned s :: rest := by
  cases h : db.two_write_queues_
  · rw [TEST_SwitchMemtable_trace_one_queue SwitchMemtable db addr cfd h]
    refine ⟨⟨[_, _, _], _, rfl⟩, ?_⟩
    intro pre post c ctx hsplit
    simp [List.cons_eq_append_iff] at hsplit
    obtain ⟨_, rfl, _, rfl, _, rfl, rfl, rfl, rfl⟩ := hsplit
    refine ⟨?_, _, _, rfl⟩
    intro q hq
    cases q
    · exact ⟨⟨WriterPtr.heap addr, by simp⟩, by simp⟩
    · simp [queueInUse, h] at hq
  · rw [TEST_SwitchMemtable_trace_two_queues SwitchMemtable db addr cfd h]
    refine ⟨⟨[_, _, _, _], _, rfl⟩, ?_⟩
    intro pre post c ctx hsplit
    simp [List.cons_eq_append_iff] at hsplit
    obtain ⟨_, rfl, _, rfl, _, rfl, _, rfl, rfl, rfl, rfl⟩ := hsplit
    refine ⟨?_, _, _, rfl⟩
    intro q _
    cases q
    · exact ⟨⟨WriterPtr.heap addr, by simp⟩, by simp⟩
    · exact ⟨⟨WriterPtr.nonmem_w, by simp⟩, by simp⟩

/-- C2 witness: with two write queues, at the call of `SwitchMemtable` both queues have been
entered and none has been left, and the return follows at once. -/
theorem TEST_SwitchMemtable_exclusive_window_witness :
    (∀ q, (sampleDb true).queueInUse q = true →
      (∃ w, Event.EnterUnbatched q w ∈
        [Event.Lock, Event.NewWriter (WriterPtr.heap 0),
         Event.EnterUnbatched WriteQueue.write_thread_ (WriterPtr.heap 0),
         Event.EnterUnbatched WriteQueue.nonmem_write_thread_ WriterPtr.nonmem_w]) ∧
      ∀ w, Event.ExitUnbatched q w ∉
        [Event.Lock, Event.NewWriter (WriterPtr.heap 0),
         Event.EnterUnbatched WriteQueue.write_thread_ (WriterPtr.heap 0),
         Event.EnterUnbatched WriteQueue.nonmem_write_thread_ WriterPtr.nonmem_w]) ∧
    ∃ s rest,
      [Event.SwitchMemtableReturned Status.OK,
       Event.ExitUnbatched WriteQueue.nonmem_write_thread_ WriterPtr.nonmem_w,
       Event.ExitUnbatched WriteQueue.write_thread_ (WriterPtr.heap 0),
       Event.DeleteWriter (WriterPtr.heap 0), Event.Unlock] =
        Event.SwitchMemtableReturned s :: rest :=
  (TEST_SwitchMemtable_exclusive_window (fun _ _ => Status.OK) (sampleDb true) 0 none).2
    [Event.Lock, Event.NewWriter (WriterPtr.heap 0),
     Event.EnterUnbatched WriteQueue.write_thread_ (WriterPtr.heap 0),
     Event.EnterUnbatched WriteQueue.nonmem_write_thread_ WriterPtr.nonmem_w]
    [Event.SwitchMemtableReturned Status.OK,
     Event.ExitUnbatched WriteQueue.nonmem_write_thread_ WriterPtr.nonmem_w,
     Event.ExitUnbatched WriteQueue.write_thread_ (WriterPtr.heap 0),
     Event.DeleteWriter (WriterPtr.heap 0), Event.Unlock]
    (sampleDb true).default_cf_handle_.cfd WriteContext.default rfl

/-! ### `TEST_SwitchWAL` and the write queues -/

/-- The trace of `TEST_SwitchWAL` when the steps of the switch routine are visible. -/
theorem TEST_SwitchWAL_with_steps_trace (SwitchWAL : WriteContext → Status × List Event)
    (db : DBImpl) (addr : Nat) :
    (db.TEST_SwitchWAL_with_steps SwitchWAL addr).trace =
      ((SwitchWAL WriteContext.default).1,
       [Event.Lock, Event.NewWriter (WriterPtr.heap addr),
        Event.EnterUnbatched WriteQueue.write_thread_ (WriterPtr.heap addr)] ++
        (Event.SwitchWAL WriteContext.default ::
          ((SwitchWAL WriteContext.default).2 ++
            [Event.SwitchWALReturned (SwitchWAL WriteContext.default).1,
             Event.ExitUnbatched WriteQueue.write_thread_ (WriterPtr.heap addr),
             Event.DeleteWriter (WriterPtr.heap addr), Event.Unlock]))) := by
  have h : (db.TEST_SwitchWAL_with_steps SwitchWAL addr).trace =
      ((SwitchWAL WriteContext.default).1,
       [Event.Lock, Event.NewWriter (WriterPtr.heap addr),
        Event.EnterUnbatched WriteQueue.write_thread_ (WriterPtr.heap addr),
        Event.SwitchWAL WriteContext.default] ++ (SwitchWAL WriteContext.default).2 ++
        [Event.SwitchWALReturned (SwitchWAL WriteContext.default).1] ++
        [Event.ExitUnbatched WriteQueue.write_thread_ (WriterPtr.heap addr)] ++
        [Event.DeleteWriter (WriterPtr.heap addr)] ++ [Event.Unlock]) := rfl
  rw [h]
  simp

/-- C3 (as stated, refuted): with `two_write_queues_` set, the non-memtable write queue is in
use and `TEST_SwitchWAL` calls `SwitchWAL` after entering the main queue only, so `SwitchWAL`
is not invoked while admission is held on every queue in use; this is so when the steps of
`SwitchWAL` are not part of the trace, and also when `SwitchWAL` itself enters and leaves the
non-memtable queue after it has been called. -/
theorem TEST_SwitchWAL_invoked_without_nonmem_admission :
    ¬ switchWALUnderAdmission (sampleDb true)
        ((sampleDb true).TEST_SwitchWAL (fun _ => Status.OK) 0).trace.2 ∧
    ¬ switchWALUnderAdmission (sampleDb true)
        ((sampleDb true).TEST_SwitchWAL_with_steps
          (fun _ => (Status.OK,
            [Event.EnterUnbatched WriteQueue.nonmem_write_thread_ WriterPtr.nonmem_w,
             Event.ExitUnbatched WriteQueue.nonmem_write_thread_ WriterPtr.nonmem_w]))
          0).trace.2 := by
  constructor
  · intro h
    obtain ⟨⟨w, hw⟩, _⟩ := h
      [Event.Lock, Event.NewWriter (WriterPtr.heap 0),
       Event.EnterUnbatched WriteQueue.write_thread_ (WriterPtr.heap 0)]
      _ WriteContext.default rfl WriteQueue.nonmem_write_thread_ rfl
    simp at hw
  · intro h
    obtain ⟨⟨w, hw⟩, _⟩ := h
      [Event.Lock, Event.NewWriter (WriterPtr.heap 0),
       Event.EnterUnbatched WriteQueue.write_thread_ (WriterPtr.heap 0)]
      _ WriteContext.default rfl WriteQueue.nonmem_write_thread_ rfl
    simp at hw

/-- C3 (amended): for every configuration, `TEST_SwitchWAL` invokes `SwitchWAL` only while
unbatched admission is held on the main write queue: at every call of `SwitchWAL` in its
trace the main queue has been entered and not left, the only admission entered before the
call is the one on the main queue with the writer of `TEST_BeginWrite` (none on the
non-memtable queue, for either setting of `two_write_queues_`), and the return is the next
step; and whatever steps `SwitchWAL` takes itself, the steps before its call are the lock,
the allocation of the writer and the enter of the main queue, and the main queue is left
after the return. -/
theorem TEST_SwitchWAL_main_queue_window (SwitchWAL : WriteContext → Status)
    (SwitchWALSteps : WriteContext → Status × List Event) (db : DBImpl) (addr : Nat) :
    (∃ pre post, (db.TEST_SwitchWAL SwitchWAL addr).trace.2 =
        pre ++ Event.SwitchWAL WriteContext.default :: post) ∧
    (∀ pre post ctx,
      (db.TEST_SwitchWAL SwitchWAL addr).trace.2 = pre ++ Event.SwitchWAL ctx :: post →
      (∃ w, Event.EnterUnbatched WriteQueue.write_thread_ w ∈ pre) ∧
      (∀ w, Event.ExitUnbatched WriteQueue.write_thread_ w ∉ pre) ∧
      (∀ q w, Event.EnterUnbatched q w ∈ pre →
        q = WriteQueue.write_thread_ ∧ w = WriterPtr.heap addr) ∧
      ∃ s rest, post = Event.SwitchWALReturned s :: rest) ∧
    (db.TEST_SwitchWAL_with_steps SwitchWALSteps addr).trace.2 =
      [Event.Lock, Event.NewWriter (WriterPtr.heap addr),
       Event.EnterUnbatched WriteQueue.write_thread_ (WriterPtr.heap addr)] ++
       (Event.SwitchWAL WriteContext.default ::
         ((SwitchWALSteps WriteContext.default).2 ++
           [Event.SwitchWALReturned (SwitchWALSteps WriteContext.default).1,
            Event.ExitUnbatched WriteQueue.write_thread_ (WriterPtr.heap addr),
            Event.DeleteWriter (WriterPtr.heap addr), Event.Unlock])) := by
  refine ⟨?_, ?_, ?_⟩
  · rw [TEST_SwitchWAL_trace]
    exact ⟨[_, _, _], _, rfl⟩
  · rw [TEST_SwitchWAL_trace]
    intro pre post ctx hsplit
    simp [List.cons_eq_append_iff] at hsplit
    obtain ⟨_, rfl, _, rfl, _, rfl, rfl, rfl⟩ := hsplit
    refine ⟨⟨WriterPtr.heap addr, by simp⟩, by simp, ?_, _, _, rfl⟩
    intro q w hmem
    simpa using hmem
  · rw [TEST_SwitchWAL_with_steps_trace]

/-- C3 witness: with two write queues, at the call of `SwitchWAL` the main queue has been
entered with the writer at heap address `0` and the return follows at once. -/
theorem TEST_SwitchWAL_main_queue_window_witness :
    (∃ w, Event.EnterUnbatched WriteQueue.write_thread_ w ∈
      [Event.Lock, Event.NewWriter (WriterPtr.heap 0),
       Event.EnterUnbatched WriteQueue.write_thread_ (WriterPtr.heap 0)]) ∧
    (∀ w, Event.ExitUnbatched WriteQueue.write_thread_ w ∉
      [Event.Lock, Event.NewWriter (WriterPtr.heap 0),
       Event.EnterUnbatched WriteQueue.write_thread_ (WriterPtr.heap 0)]) ∧
    (∀ q w, Event.EnterUnbatched q w ∈
      [Event.Lock, Event.NewWriter (WriterPtr.heap 0),
       Event.EnterUnbatched WriteQueue.write_thread_ (WriterPtr.heap 0)] →
      q = WriteQueue.write_thread_ ∧ w = WriterPtr.heap 0) ∧
    ∃ s rest,
      [Event.SwitchWALReturned Status.OK,
       Event.ExitUnbatched WriteQueue.write_thread_ (WriterPtr.heap 0),
       Event.DeleteWriter (WriterPtr.heap 0), Event.Unlock] =
        Event.SwitchWALReturned s :: rest :=
  (TEST_SwitchWAL_main_queue_window (fun _ => Status.OK) (fun _ => (Status.OK, []))
    (sampleDb true) 0).2.1
    [Event.Lock, Event.NewWriter (WriterPtr.heap 0),
     Event.EnterUnbatched WriteQueue.write_thread_ (WriterPtr.heap 0)]
    [Event.SwitchWALReturned Status.OK,
     Event.ExitUnbatched WriteQueue.write_thread_ (WriterPtr.heap 0),
     Event.DeleteWriter (WriterPtr.heap 0), Event.Unlock]
    WriteContext.default rfl

/-! ### Release of admission -/

/-- Admission is released along the trace of `TEST_SwitchWAL`. -/
theorem TEST_SwitchWAL_releases (SwitchWAL : WriteContext → Status) (db : DBImpl)
    (addr : Nat) : releasesAdmission (db.TEST_SwitchWAL SwitchWAL addr).trace.2 addr := by
  rw [TEST_SwitchWAL_trace]
  refine ⟨?_, ?_, ?_, ?_, ?_, ⟨[_, _, _, _, _], rfl⟩⟩
  · simp [replayUnbatched]
  · intro pre post q w hsplit
    simp [List.cons_eq_append_iff] at hsplit
    obtain ⟨_, rfl, _, rfl, rfl, ⟨rfl, rfl⟩, rfl⟩ := hsplit
    simp [List.countP_cons, Event.isExit]
  · intro q w
    simp [List.countP_cons, Event.isEnter, Event.isExit]
  · simp [List.countP_cons, Event.isNew]
  · intro w
    simp [List.countP_cons, Event.isDelete, eq_comm]

/-- Admission is released along the trace of `TEST_SwitchMemtable`. -/
theorem TEST_SwitchMemtable_releases
    (SwitchMemtable : ColumnFamilyData → WriteContext → Status) (db : DBImpl) (addr : Nat)
    (cfd : Option ColumnFamilyData) :
    releasesAdmission (db.TEST_SwitchMemtable SwitchMemtable addr cfd).trace.2 addr := by
  cases h : db.two_write_queues_
  · rw [TEST_SwitchMemtable_trace_one_queue SwitchMemtable db addr cfd h]
    refine ⟨?_, ?_, ?_, ?_, ?_, ⟨[_, _, _, _, _], rfl⟩⟩
    · simp [replayUnbatched]
    · intro pre post q w hsplit
      simp [List.cons_eq_append_iff] at hsplit
      obtain ⟨_, rfl, _, rfl, rfl, ⟨rfl, rfl⟩, rfl⟩ := hsplit
      simp [List.countP_cons, Event.isExit]
    · intro q w
      simp [List.countP_cons, Event.isEnter, Event.isExit]
    · simp [List.countP_cons, Event.isNew]
    · intro w
      simp [List.countP_cons, Event.isDelete, eq_comm]
  · rw [TEST_SwitchMemtable_trace_two_queues SwitchMemtable db addr cfd h]
    refine ⟨?_, ?_, ?_, ?_, ?_, ⟨[_, _, _, _, _, _, _], rfl⟩⟩
    · simp [replayUnbatched]
    · intro pre post q w hsplit
      simp [List.cons_eq_append_iff] at hsplit
      obtain ⟨_, rfl, _, rfl, hrest⟩ := hsplit
      rcases hrest with ⟨rfl, ⟨rfl, rfl⟩, rfl⟩ | ⟨_, rfl, rfl, ⟨rfl, rfl⟩, rfl⟩ <;>
        simp [List.countP_cons, Event.isExit]
    · intro q w
      simp [List.countP_cons, Event.isEnter, Event.isExit, Nat.add_comm]
    · simp [List.countP_cons, Event.isNew]
    · intro w
      simp [List.countP_cons, Event.isDelete, eq_comm]

/-- C9: in `TEST_SwitchWAL` and `TEST_SwitchMemtable`, for every status the inner switch
returns, admission is released: the enter and exit steps are well nested with every window
closed, each `EnterUnbatched` is followed by exactly one `ExitUnbatched` on the same queue
with the same writer, the writer allocated by `TEST_BeginWrite` is the only one deleted and
is deleted exactly once by `TEST_EndWrite`, and the status returned to the caller is the
inner switch's status. -/
theorem TEST_Switch_releases_admission (SwitchWAL : WriteContext → Status)
    (SwitchMemtable : ColumnFamilyData → WriteContext → Status) (db : DBImpl) (addr : Nat)
    (cfd : Option ColumnFamilyData) :
    (releasesAdmission (db.TEST_SwitchWAL SwitchWAL addr).trace.2 addr ∧
      Event.SwitchWALReturned (db.TEST_SwitchWAL SwitchWAL addr).trace.1 ∈
        (db.TEST_SwitchWAL SwitchWAL addr).trace.2 ∧
      (db.TEST_SwitchWAL SwitchWAL addr).trace.1 = SwitchWAL WriteContext.default) ∧
    (releasesAdmission (db.TEST_SwitchMemtable SwitchMemtable addr cfd).trace.2 addr ∧
      Event.SwitchMemtableReturned (db.TEST_SwitchMemtable SwitchMemtable addr cfd).trace.1 ∈
        (db.TEST_SwitchMemtable SwitchMemtable addr cfd).trace.2 ∧
      (db.TEST_SwitchMemtable SwitchMemtable addr cfd).trace.1 =
        SwitchMemtable (cfd.getD db.default_cf_handle_.cfd) WriteContext.default) := by
  refine ⟨⟨TEST_SwitchWAL_releases SwitchWAL db addr, ?_, rfl⟩,
    ⟨TEST_SwitchMemtable_releases SwitchMemtable db addr cfd, ?_, ?_⟩⟩
  · rw [TEST_SwitchWAL_trace]
    simp
  · cases h : db.two_write_queues_
    · rw [TEST_SwitchMemtable_trace_one_queue SwitchMemtable db addr cfd h]
      simp
    · rw [TEST_SwitchMemtable_trace_two_queues SwitchMemtable db addr cfd h]
      simp
  · cases h : db.two_write_queues_
    · rw [TEST_SwitchMemtable_trace_one_queue SwitchMemtable db addr cfd h]
    · rw [TEST_SwitchMemtable_trace_two_queues SwitchMemtable db addr cfd h]

/-- C9 witness: when the inner `SwitchMemtable` fails with code `5` under two write queues,
the enter of the non-memtable queue is still followed by exactly one exit with the same
writer. -/
theorem TEST_Switch_releases_admission_witness :
    List.countP (Event.isExit WriteQueue.nonmem_write_thread_ WriterPtr.nonmem_w)
      [Event.SwitchMemtable (sampleDb true).default_cf_handle_.cfd WriteContext.default,
       Event.SwitchMemtableReturned ⟨5, "disk failure"⟩,
       Event.ExitUnbatched WriteQueue.nonmem_write_thread_ WriterPtr.nonmem_w,
       Event.ExitUnbatched WriteQueue.write_thread_ (WriterPtr.heap 0),
       Event.DeleteWriter (WriterPtr.heap 0), Event.Unlock] = 1 :=
  (TEST_Switch_releases_admission (fun _ => Status.OK) (fun _ _ => ⟨5, "disk failure"⟩)
    (sampleDb true) 0 none).2.1.2.1
    [Event.Lock, Event.NewWriter (WriterPtr.heap 0),
     Event.EnterUnbatched WriteQueue.write_thread_ (WriterPtr.heap 0)]
    _ WriteQueue.nonmem_write_thread_ WriterPtr.nonmem_w rfl

/-! ### Waiting for scheduled compactions and purges -/

/-- When the wait loop ends, the condition is false in the final state, which is the entry
state after no wait and the state found by the last wait otherwise. -/
theorem whileWait_some (cond : DBImpl → Bool) (Wait : Nat → DBImpl) :
    ∀ (fuel k : Nat) (db db' : DBImpl) (n : Nat),
      whileWait cond Wait fuel k db = some (db', n) →
      cond db' = false ∧ k ≤ n ∧ (n = k → db' = db) ∧ (k < n → db' = Wait (n - 1)) := by
  intro fuel
  induction fuel with
  | zero => intro k db db' n h; simp [whileWait] at h
  | succ fuel ih =>
    intro k db db' n h
    unfold whileWait at h
    by_cases hc : cond db = true
    · rw [if_pos hc] at h
      obtain ⟨h1, h2, h3, h4⟩ := ih (k + 1) (Wait k) db' n h
      refine ⟨h1, by omega, by omega, ?_⟩
      intro _
      by_cases hn : n = k + 1
      · rw [h3 hn, hn]; simp
      · exact h4 (by omega)
    · rw [if_neg hc] at h
      simp only [Option.some.injEq, Prod.mk.injEq] at h
      obtain ⟨rfl, rfl⟩ := h
      exact ⟨by simpa using hc, le_refl _, fun _ => rfl, fun hlt => absurd hlt (lt_irrefl _)⟩

/-- When the condition is false on entry the loop ends at once, without a wait. -/
theorem whileWait_exit (cond : DBImpl → Bool) (Wait : Nat → DBImpl) (fuel k : Nat)
    (db : DBImpl) (h : cond db = false) :
    whileWait cond Wait (fuel + 1) k db = some (db, k) := by
  simp [whileWait, h]

/-- When some wait finds the condition false, enough fuel makes the loop end. -/
theorem whileWait_terminates (cond : DBImpl → Bool) (Wait : Nat → DBImpl) :
    ∀ (d k : Nat) (db : DBImpl) (fuel : Nat), cond (Wait (k + d)) = false → d + 2 ≤ fuel →
      (whileWait cond Wait fuel k db).isSome = true := by
  intro d
  induction d with
  | zero =>
    intro k db fuel hc hfuel
    obtain ⟨f, rfl⟩ : ∃ f, fuel = f + 2 := ⟨fuel - 2, by omega⟩
    unfold whileWait
    by_cases hdb : cond db = true
    · rw [if_pos hdb, whileWait_exit cond Wait f (k + 1) (Wait k) (by simpa using hc)]
      rfl
    · rw [if_neg hdb]; rfl
  | succ d ih =>
    intro k db fuel hc hfuel
    obtain ⟨f, rfl⟩ : ∃ f, fuel = f + 1 := ⟨fuel - 1, by omega⟩
    unfold whileWait
    by_cases hdb : cond db = true
    · rw [if_pos hdb]
      exact ih (k + 1) (Wait k) f (by rw [← hc]; congr 2; omega) (by omega)
    · rw [if_neg hdb]; rfl

/-- The compaction loop condition is false exactly when nothing is scheduled or the recorded
error is not OK. -/
theorem compactionPending_false (db : DBImpl) :
    compactionPending db = false ↔
      (db.bg_compaction_scheduled_ = 0 ∨ db.error_handler_.GetBGError.ok = false) := by
  simp [compactionPending, intToBool]
  tauto

/-- The purge loop condition is false exactly when nothing is scheduled or the recorded
error is not OK. -/
theorem purgePending_false (db : DBImpl) :
    purgePending db = false ↔
      (db.bg_purge_scheduled_ = 0 ∨ db.error_handler_.GetBGError.ok = false) := by
  simp [purgePending, intToBool]
  tauto

/-- The contract of a wait entry point built on `whileWait` with a condition that is false
exactly when the counter is `0` or the recorded error is not OK. -/
theorem waitContract_of_whileWait (cond : DBImpl → Bool) (scheduled : DBImpl → Int)
    (hcond : ∀ db, cond db = false ↔
      (scheduled db = 0 ∨ db.error_handler_.GetBGError.ok = false))
    (Wait : Nat → DBImpl) (fuel : Nat) (db : DBImpl) :
    waitContract
      (fun Wait fuel db =>
        match whileWait cond Wait fuel 0 db with
        | none => none
        | some (db, waits) => some (db.error_handler_.GetBGError, db, waits))
      scheduled Wait fuel db := by
  refine ⟨?_, ?_, ?_⟩
  · intro s db' n h
    simp only at h
    cases hw : whileWait cond Wait fuel 0 db with
    | none => rw [hw] at h; simp at h
    | some r =>
      obtain ⟨d, w⟩ := r
      rw [hw] at h
      simp only [Option.some.injEq, Prod.mk.injEq] at h
      obtain ⟨rfl, rfl, rfl⟩ := h
      obtain ⟨h1, _, h3, h4⟩ := whileWait_some cond Wait fuel 0 db d w hw
      refine ⟨(hcond d).1 h1, rfl, ?_⟩
      by_cases hw0 : w = 0
      · rw [if_pos hw0]; exact h3 hw0
      · rw [if_neg hw0]; exact h4 (by omega)
  · intro h
    simp only
    rw [whileWait_exit cond Wait fuel 0 db ((hcond db).2 h)]
  · intro j h hfuel
    have := whileWait_terminates cond Wait j 0 db fuel (by simpa using (hcond (Wait j)).2 h)
      hfuel
    simp only
    cases hw : whileWait cond Wait fuel 0 db with
    | none => rw [hw] at this; simp at this
    | some r => rfl

/-- C4: whenever `TEST_WaitForScheduledCompaction` returns, either `bg_compaction_scheduled_`
is `0` or the recorded background error is not OK, and the returned status is the background
error recorded in the state at the return; when on entry nothing is scheduled or an error is
already recorded it returns without waiting on the condition variable; and it does return
once a wait finds such a state.  The same holds for `TEST_WaitForPurge` with
`bg_purge_scheduled_`. -/
theorem TEST_WaitForScheduledCompaction_and_Purge_contract (Wait : Nat → DBImpl) (fuel : Nat)
    (db : DBImpl) :
    waitContract TEST_WaitForScheduledCompaction (fun db => db.bg_compaction_scheduled_)
      Wait fuel db ∧
    waitContract TEST_WaitForPurge (fun db => db.bg_purge_scheduled_) Wait fuel db :=
  ⟨waitContract_of_whileWait compactionPending (fun db => db.bg_compaction_scheduled_)
      compactionPending_false Wait fuel db,
   waitContract_of_whileWait purgePending (fun db => db.bg_purge_scheduled_)
      purgePending_false Wait fuel db⟩

/-- C4 witness: entered with one compaction scheduled and no error, with the first wait
finding nothing scheduled, `TEST_WaitForScheduledCompaction` returns OK after one wait; and
entered with a purge scheduled but an error already recorded, `TEST_WaitForPurge` returns
that error without waiting. -/
theorem TEST_WaitForScheduledCompaction_and_Purge_contract_witness :
    (((sampleDb false).bg_compaction_scheduled_ = 0 ∨
        (sampleDb false).error_handler_.GetBGError.ok = false) ∧
      (Status.OK = (sampleDb false).error_handler_.GetBGError) ∧
      sampleDb false = (if 1 = 0 then { sampleDb false with bg_compaction_scheduled_ := 1 }
        else (fun _ => sampleDb false) (1 - 1))) ∧
    TEST_WaitForPurge (fun _ => sampleDb false) (0 + 1)
        { sampleDb false with bg_purge_scheduled_ := 1, error_handler_ := ⟨⟨5, "disk failure"⟩⟩ } =
      some (⟨5, "disk failure"⟩,
        { sampleDb false with bg_purge_scheduled_ := 1, error_handler_ := ⟨⟨5, "disk failure"⟩⟩ },
        0) :=
  ⟨(TEST_WaitForScheduledCompaction_and_Purge_contract (fun _ => sampleDb false) 2
      { sampleDb false with bg_compaction_scheduled_ := 1 }).1.1 Status.OK (sampleDb false) 1
      rfl,
   (TEST_WaitForScheduledCompaction_and_Purge_contract (fun _ => sampleDb false) 0
      { sampleDb false with bg_purge_scheduled_ := 1,
                            error_handler_ := ⟨⟨5, "disk failure"⟩⟩ }).2.2.1 (Or.inr rfl)⟩

/-! ### `TEST_GetFilesMetaData` -/

/-- The length of a resized vector is the requested size. -/
theorem vectorResize_length {α : Type} (v : List α) (n : Nat) (fill : α) :
    (vectorResize v n fill).length = n := by
  simp only [vectorResize, List.length_append, List.length_take, List.length_replicate]
  omega

/-- Appending files one by one to a level whose entry is `cur` leaves `cur` followed by the
files there and every other level untouched. -/
theorem foldl_pushBackAt (level : Nat) :
    ∀ (files cur : List FileMetaData) (md : List (List FileMetaData)), level < md.length →
      files.foldl (fun md f => pushBackAt md level f) (md.set level cur) =
        md.set level (cur ++ files) := by
  intro files
  induction files with
  | nil => intro cur md _; simp
  | cons f fs ih =>
    intro cur md h
    have hstep : pushBackAt (md.set level cur) level f = md.set level (cur ++ [f]) := by
      simp [pushBackAt, List.set_set, List.getElem?_set_self h]
    simp only [List.foldl_cons, hstep]
    rw [ih (cur ++ [f]) md h]
    simp

/-- One pass of the level loop replaces the entry of the level by that level's files. -/
theorem copyLevel_eq (vstorage : VersionStorageInfo) (md : List (List FileMetaData))
    (level : Nat) (h : level < md.length) :
    copyLevel vstorage md level = md.set level (vstorage.LevelFiles level) := by
  simp only [copyLevel]
  rw [foldl_pushBackAt level _ [] md h]
  simp

/-- After the first `k` passes of the level loop the first `k` entries are the files of the
levels `0 .. k - 1` and the other entries are untouched. -/
theorem foldl_copyLevel (vstorage : VersionStorageInfo) (md : List (List FileMetaData)) :
    ∀ k, k ≤ md.length →
      (List.range k).foldl (copyLevel vstorage) md =
        (List.range k).map vstorage.LevelFiles ++ md.drop k := by
  intro k
  induction k with
  | zero => intro _; simp
  | succ k ih =>
    intro hk
    have hlt : k < md.length := by omega
    rw [List.range_succ, List.foldl_append, ih (by omega)]
    simp only [List.foldl_cons, List.foldl_nil, List.map_append, List.map_cons, List.map_nil]
    rw [copyLevel_eq vstorage _ k (by simp; omega)]
    rw [List.set_append_right k _ (by simp)]
    have hdrop : (List.drop k md).set 0 (vstorage.LevelFiles k) =
        vstorage.LevelFiles k :: List.drop (k + 1) md := by
      rw [List.drop_eq_getElem_cons hlt]
      rfl
    simp [hdrop]

/-- C6: for every column family and every prior content of the output vector,
`TEST_GetFilesMetaData` leaves the output with exactly `NumberLevels()` entries, entry `i`
being the files of level `i` of the family's current version in the same order, whatever the
prior content was; a supplied blob output is set to the version's blob-file list and a null
one stays null. -/
theorem TEST_GetFilesMetaData_output (NumberLevels : Nat)
    (column_family : ColumnFamilyHandleImpl) (metadata : List (List FileMetaData))
    (blob_metadata : Option (List BlobFileMetaData)) :
    (TEST_GetFilesMetaData NumberLevels column_family metadata blob_metadata).1.length =
        NumberLevels ∧
    (∀ i, i < NumberLevels →
      (TEST_GetFilesMetaData NumberLevels column_family metadata blob_metadata).1[i]? =
        some (column_family.cfd.current.storage_info.LevelFiles i)) ∧
    (TEST_GetFilesMetaData NumberLevels column_family metadata blob_metadata).1 =
        (List.range NumberLevels).map column_family.cfd.current.storage_info.LevelFiles ∧
    (TEST_GetFilesMetaData NumberLevels column_family metadata blob_metadata).1 =
        (TEST_GetFilesMetaData NumberLevels column_family [] blob_metadata).1 ∧
    (∀ prior, blob_metadata = some prior →
      (TEST_GetFilesMetaData NumberLevels column_family metadata blob_metadata).2 =
        some column_family.cfd.current.storage_info.GetBlobFiles) ∧
    (blob_metadata = none →
      (TEST_GetFilesMetaData NumberLevels column_family metadata blob_metadata).2 = none) := by
  have hmain : ∀ md : List (List FileMetaData),
      (TEST_GetFilesMetaData NumberLevels column_family md blob_metadata).1 =
        (List.range NumberLevels).map column_family.cfd.current.storage_info.LevelFiles := by
    intro md
    simp only [TEST_GetFilesMetaData]
    rw [foldl_copyLevel _ _ NumberLevels (by rw [vectorResize_length])]
    rw [List.drop_of_length_le (by rw [vectorResize_length])]
    simp
  refine ⟨?_, ?_, hmain metadata, ?_, ?_, ?_⟩
  · rw [hmain]; simp
  · intro i hi
    rw [hmain]
    simp [hi]
  · rw [hmain, hmain]
  · rintro prior rfl; rfl
  · rintro rfl; rfl

/-- C6 witness: on an output vector holding three stale entries and a supplied blob output,
two levels are requested; entry `1` is the single file of level `1` and the blob output is
the version's blob list. -/
theorem TEST_GetFilesMetaData_output_witness :
    (TEST_GetFilesMetaData 2 ⟨sampleCfd "cf1" CompactionStyle.kCompactionStyleLevel 1⟩
        [[⟨1, "x", "y", 1, 1, 1⟩], [], [⟨2, "x", "y", 1, 1, 1⟩]] (some [⟨3, 3⟩])).1[1]? =
      some [⟨5, "a", "z", 30, 0, 0⟩] ∧
    (TEST_GetFilesMetaData 2 ⟨sampleCfd "cf1" CompactionStyle.kCompactionStyleLevel 1⟩
        [[⟨1, "x", "y", 1, 1, 1⟩], [], [⟨2, "x", "y", 1, 1, 1⟩]] (some [⟨3, 3⟩])).2 =
      some [⟨11, 100⟩] :=
  ⟨(TEST_GetFilesMetaData_output 2 ⟨sampleCfd "cf1" CompactionStyle.kCompactionStyleLevel 1⟩
      [[⟨1, "x", "y", 1, 1, 1⟩], [], [⟨2, "x", "y", 1, 1, 1⟩]] (some [⟨3, 3⟩])).2.1 1
      (by decide),
   (TEST_GetFilesMetaData_output 2 ⟨sampleCfd "cf1" CompactionStyle.kCompactionStyleLevel 1⟩
      [[⟨1, "x", "y", 1, 1, 1⟩], [], [⟨2, "x", "y", 1, 1, 1⟩]] (some [⟨3, 3⟩])).2.2.2.2.1
      [⟨3, 3⟩] rfl⟩

/-! ### `TEST_GetAllImmutableCFOptions` -/

/-- The first loop collects the names and the options of the families in iteration order. -/
theorem foldl_collect (cfds : List ColumnFamilyData) :
    ∀ (names : List String) (iopts : List ImmutableCFOptions),
      cfds.foldl (fun acc cfd => (acc.1 ++ [cfd.GetName], acc.2 ++ [cfd.ioptions]))
          (names, iopts) =
        (names ++ cfds.map ColumnFamilyData.GetName,
         iopts ++ cfds.map ColumnFamilyData.ioptions) := by
  induction cfds with
  | nil => intro names iopts; simp
  | cons c cs ih => intro names iopts; simp [ih]

/-- The indexed insertion loop inserts the families' names and options in iteration order. -/
theorem foldl_insert_indexed (cfds : List ColumnFamilyData) (d : ImmutableCFOptions)
    (m : IOptsMap) :
    (List.range (cfds.map ColumnFamilyData.GetName).length).foldl
        (fun m i => IOptsMap.insert m ((cfds.map ColumnFamilyData.GetName).getD i "")
          ((cfds.map ColumnFamilyData.ioptions).getD i d)) m =
      cfds.foldl (fun m c => IOptsMap.insert m c.GetName c.ioptions) m := by
  have hlist : (List.range (cfds.map ColumnFamilyData.GetName).length).map
      (fun i => ((cfds.map ColumnFamilyData.GetName).getD i "",
        (cfds.map ColumnFamilyData.ioptions).getD i d)) =
      cfds.map (fun c => (c.GetName, c.ioptions)) := by
    apply List.ext_getElem
    · simp
    · intro i h1 h2
      simp only [List.length_map] at h2
      simp [h2]
  have h1 := List.foldl_map (fun i => ((cfds.map ColumnFamilyData.GetName).getD i "",
        (cfds.map ColumnFamilyData.ioptions).getD i d))
      (fun (m : IOptsMap) (p : String × ImmutableCFOptions) => IOptsMap.insert m p.1 p.2)
      (List.range (cfds.map ColumnFamilyData.GetName).length) m
  have h2 := List.foldl_map (fun c : ColumnFamilyData => (c.GetName, c.ioptions))
      (fun (m : IOptsMap) (p : String × ImmutableCFOptions) => IOptsMap.insert m p.1 p.2) cfds m
  rw [hlist] at h1
  exact h1.symm.trans h2

/-- Looking a name up after inserting the families one by one: an entry already present
wins, otherwise the first family with that name provides the options. -/
theorem lookup_foldl_insert (name : String) :
    ∀ (cfds : List ColumnFamilyData) (m : IOptsMap),
      List.lookup name (cfds.foldl (fun m c => IOptsMap.insert m c.GetName c.ioptions) m) =
        (List.lookup name m).or
          ((cfds.find? (fun c => c.GetName == name)).map ColumnFamilyData.ioptions) := by
  intro cfds
  induction cfds with
  | nil => intro m; simp
  | cons c cs ih =>
    intro m
    rw [List.foldl_cons, ih]
    simp only [IOptsMap.insert, List.find?_cons]
    by_cases hpresent : (List.lookup c.GetName m).isSome = true
    · rw [if_pos hpresent]
      by_cases hname : c.GetName = name
      · subst hname
        obtain ⟨v, hv⟩ := Option.isSome_iff_exists.1 hpresent
        simp [hv]
      · have : (c.GetName == name) = false := by simpa using hname
        simp [this]
    · rw [if_neg hpresent, List.lookup_append]
      by_cases hname : c.GetName = name
      · subst hname
        have hnone : List.lookup c.GetName m = none := by
          cases hl : List.lookup c.GetName m with
          | none => rfl
          | some v => rw [hl] at hpresent; simp at hpresent
        simp [hnone, List.lookup]
      · have hne : (c.GetName == name) = false := by simpa using hname
        have hne' : (name == c.GetName) = false := by
          simpa using fun h : name = c.GetName => hname h.symm
        simp [hne, List.lookup, hne']

/-- Inserting the families one by one keeps the keys of the map distinct. -/
theorem nodup_keys_foldl_insert :
    ∀ (cfds : List ColumnFamilyData) (m : IOptsMap), (m.map Prod.fst).Nodup →
      ((cfds.foldl (fun m c => IOptsMap.insert m c.GetName c.ioptions) m).map Prod.fst).Nodup := by
  intro cfds
  induction cfds with
  | nil => intro m h; simpa using h
  | cons c cs ih =>
    intro m h
    rw [List.foldl_cons]
    apply ih
    simp only [IOptsMap.insert]
    by_cases hpresent : (List.lookup c.GetName m).isSome = true
    · rw [if_pos hpresent]; exact h
    · rw [if_neg hpresent]
      have hnone : List.lookup c.GetName m = none := by
        cases hl : List.lookup c.GetName m with
        | none => rfl
        | some v => rw [hl] at hpresent; simp at hpresent
      rw [List.lookup_eq_none_iff] at hnone
      rw [List.map_append, List.nodup_append]
      refine ⟨h, by simp, ?_⟩
      intro k hk1 hk2
      simp only [List.map_cons, List.map_nil, List.mem_singleton] at hk2
      subst hk2
      obtain ⟨p, hp, hpk⟩ := List.mem_map.1 hk1
      have := hnone p hp
      simp [hpk] at this

/-- The output map of `TEST_GetAllImmutableCFOptions` is the insertion, one by one into the
empty map, of the families in iteration order. -/
theorem TEST_GetAllImmutableCFOptions_eq (db : DBImpl) (iopts_map : IOptsMap) :
    db.TEST_GetAllImmutableCFOptions iopts_map =
      (Status.OK, db.versions_.GetColumnFamilySet.foldl
        (fun m c => IOptsMap.insert m c.GetName c.ioptions) []) := by
  simp only [TEST_GetAllImmutableCFOptions, foldl_collect, List.nil_append, IOptsMap.clear]
  rw [foldl_insert_indexed]

/-- C10: for every list of column families and every prior content of the output map,
`TEST_GetAllImmutableCFOptions` returns OK and leaves a map whose keys are distinct and are
exactly the names of the column families; each name maps to the options of the first family
with that name in iteration order, and the result does not depend on the prior content. -/
theorem TEST_GetAllImmutableCFOptions_result (db : DBImpl) (iopts_map : IOptsMap) :
    (db.TEST_GetAllImmutableCFOptions iopts_map).1 = Status.OK ∧
    ((db.TEST_GetAllImmutableCFOptions iopts_map).2.map Prod.fst).Nodup ∧
    (∀ name, name ∈ (db.TEST_GetAllImmutableCFOptions iopts_map).2.map Prod.fst ↔
      ∃ cfd ∈ db.versions_.GetColumnFamilySet, cfd.GetName = name) ∧
    (∀ name, List.lookup name (db.TEST_GetAllImmutableCFOptions iopts_map).2 =
      (db.versions_.GetColumnFamilySet.find? (fun c => c.GetName == name)).map
        ColumnFamilyData.ioptions) ∧
    (db.TEST_GetAllImmutableCFOptions iopts_map).2 =
      (db.TEST_GetAllImmutableCFOptions []).2 := by
  have hlookup : ∀ name, List.lookup name (db.TEST_GetAllImmutableCFOptions iopts_map).2 =
      (db.versions_.GetColumnFamilySet.find? (fun c => c.GetName == name)).map
        ColumnFamilyData.ioptions := by
    intro name
    rw [TEST_GetAllImmutableCFOptions_eq, lookup_foldl_insert]
    simp
  refine ⟨by rw [TEST_GetAllImmutableCFOptions_eq], ?_, ?_, hlookup, ?_⟩
  · rw [TEST_GetAllImmutableCFOptions_eq]
    exact nodup_keys_foldl_insert _ [] (by simp)
  · intro name
    have hkey : name ∈ (db.TEST_GetAllImmutableCFOptions iopts_map).2.map Prod.fst ↔
        (List.lookup name (db.TEST_GetAllImmutableCFOptions iopts_map).2).isSome = true := by
      rw [List.lookup_isSome_iff]
      constructor
      · intro h
        obtain ⟨p, hp, rfl⟩ := List.mem_map.1 h
        exact ⟨p, hp, by simp⟩
      · rintro ⟨p, hp, hk⟩
        exact List.mem_map.2 ⟨p, hp, by simpa using Eq.symm (by simpa using hk)⟩
    rw [hkey, hlookup]
    simp only [Option.isSome_map', List.find?_isSome, beq_iff_eq]
  · rw [TEST_GetAllImmutableCFOptions_eq, TEST_GetAllImmutableCFOptions_eq]

/-- C10 evaluation: with three families named `default`, `cf1`, `default` and a stale entry
in the output map, the name `default` maps to the options of the first family (tag `0`, not
the later tag `2`), and the stale key is gone. -/
theorem TEST_GetAllImmutableCFOptions_result_witness :
    List.lookup "default"
        ((sampleDb false).TEST_GetAllImmutableCFOptions
          [("stale", ⟨CompactionStyle.kCompactionStyleNone, 9⟩)]).2 =
      some ⟨CompactionStyle.kCompactionStyleLevel, 0⟩ ∧
    ¬ "stale" ∈ ((sampleDb false).TEST_GetAllImmutableCFOptions
          [("stale", ⟨CompactionStyle.kCompactionStyleNone, 9⟩)]).2.map Prod.fst := by
  refine ⟨?_, ?_⟩
  · rw [(TEST_GetAllImmutableCFOptions_result (sampleDb false)
      [("stale", ⟨CompactionStyle.kCompactionStyleNone, 9⟩)]).2.2.2.1 "default"]
    simp [sampleDb, sampleCfd]
  · rw [(TEST_GetAllImmutableCFOptions_result (sampleDb false)
      [("stale", ⟨CompactionStyle.kCompactionStyleNone, 9⟩)]).2.2.1 "stale"]
    simp [sampleDb, sampleCfd]

end DBImpl

end RocksDB
